import Mathlib

/-!
Verification of the DevPulse analytics pipeline.

This file gives a shallow embedding, in Lean 4, of the core analytics code of
the repository (`backend/api/server.py`, `backend/api/data_processor.py`,
`backend/ml/sentiment_analyzer.py`, `backend/ml/trend_predictor.py`,
`backend/ml/anomaly_detector.py`) and settles the specification claims about
it.  Python floats are modelled as rationals (`ℚ`), dates/timestamps as
integers, Python dicts keyed by strings as association lists, and external
effects (HTTP collectors, the transformer pipeline, the Prophet fit) as
explicit parameters describing their outcome.  All definitions are executable.
-/

namespace DevPulse

/-! ## Shared list utilities (Python dict / pandas modelling helpers) -/

/-- First-match lookup in an association list (Python `dict.get` semantics for
the dict models used below, whose keys are kept unique by `insertA`). -/
def lookupA {α : Type} : List (String × α) → String → Option α
  | [], _ => none
  | (k, v) :: t, key => if k = key then some v else lookupA t key

/-- Overwriting insert (Python `d[k] = v`): the key's previous binding is
dropped, so lookups see the new value. -/
def insertA {α : Type} (m : List (String × α)) (k : String) (v : α) :
    List (String × α) :=
  (k, v) :: m.filter (fun p => !(p.1 = k : Bool))

/-- Fuelled worker for `dedupBy`: keep the head, drop every later element
with the same key, recurse.  The fuel only makes the recursion structural
(each step consumes one unit and shortens the list by at least one element,
so fuel `l.length` never runs out). -/
def dedupByF {α : Type} {κ : Type} [DecidableEq κ] (key : α → κ) :
    Nat → List α → List α
  | 0, _ => []
  | _ + 1, [] => []
  | fuel + 1, p :: t =>
    p :: dedupByF key fuel (t.filter (fun q => !(key q = key p : Bool)))

/-- Keep the first element for each key, dropping later elements with an
already-seen key (pandas `drop_duplicates(keep='first')`, and the insertion
order of first appearances of Python dict keys). -/
def dedupBy {α : Type} {κ : Type} [DecidableEq κ] (key : α → κ)
    (l : List α) : List α :=
  dedupByF key l.length l

/-- Python `str.lower()` (ASCII case folding on the characters). -/
def pyLower (s : String) : String := String.mk (s.toList.map Char.toLower)

/-- Substring test: Python `needle in hay` on strings (as char lists). -/
def hasSub (needle : List Char) : List Char → Bool
  | [] => needle.isEmpty
  | c :: t => needle.isPrefixOf (c :: t) || hasSub needle t

/-! ## `backend/api/server.py` : `get_cached_or_fetch`

The server keeps two module-level dicts, `data_cache` (technology → report)
and `last_fetch_time` (technology → fetch timestamp).  The body of the `try:`
block (collector calls, processing, sentiment analysis, forecasting, report
assembly) is modelled by two parameters: a `FetchOutcome` describing what the
fetch/processing steps produced (`raises msg` when any step inside the `try`
raised an exception with message `msg`, `rows rs` when the combined data frame
held exactly the records `rs`), and a `build` function producing the final
report value from those records.  The report type `ρ` and the record type `α`
are arbitrary: the cache logic never inspects them. -/

/-- Outcome of the fetch-and-process steps inside the `try:` block. -/
inductive FetchOutcome (α : Type) where
  | raises (msg : String)
  | rows (combined : List α)

/-- The two module-level cache dicts of `server.py` (lines 36-37). -/
structure ServerState (ρ : Type) where
  data_cache : List (String × ρ)
  last_fetch_time : List (String × Int)
deriving DecidableEq

/-- `timedelta(hours=6)` in seconds (`server.py` line 52). -/
def cacheDuration : Int := 6 * 60 * 60

/-- Value returned by `get_cached_or_fetch`: either a full report dict or an
error dict `{'error': msg, 'technology': tech}`. -/
inductive FetchResult (ρ : Type) where
  | report (r : ρ)
  | errorDict (errmsg : String) (tech : String)
deriving DecidableEq

/-- True on the `{'error': ..., 'technology': ...}` dicts. -/
def isErrorDict {ρ : Type} : FetchResult ρ → Bool
  | .report _ => false
  | .errorDict _ _ => true

/-- The cache-hit test of `server.py` lines 55-59: a cached report is returned
iff the key is present in `data_cache`, `last_fetch_time` has a timestamp for
it, and the age is strictly below the TTL.  (A datetime object is always
truthy, so Python's `if last_fetch and ...` is `isSome` plus the age test.) -/
def cacheHit {ρ : Type} (st : ServerState ρ) (key : String) (now : Int) :
    Option ρ :=
  match lookupA st.data_cache key with
  | none => none
  | some r =>
    match lookupA st.last_fetch_time key with
    | none => none
    | some t => if now - t < cacheDuration then some r else none

/-- `get_cached_or_fetch` (`server.py` lines 40-178).  Control flow:
cache check (lines 51-59), then the `try:` block; an empty combined frame
returns the `'No data available'` error dict (lines 95-99) without touching
the cache; a successful computation stores the new report and timestamp
(lines 166-167) and returns it; any exception returns an error dict carrying
the exception message (lines 171-178) without touching the cache. -/
def get_cached_or_fetch {α ρ : Type} (build : List α → ρ)
    (env : FetchOutcome α) (technology : String) (force_refresh : Bool)
    (now : Int) (st : ServerState ρ) : FetchResult ρ × ServerState ρ :=
  let cache_key := pyLower technology
  match (if force_refresh then none else cacheHit st cache_key now) with
  | some r => (.report r, st)
  | none =>
    match env with
    | .raises msg => (.errorDict msg technology, st)
    | .rows rs =>
      if rs.isEmpty then (.errorDict "No data available" technology, st)
      else
        let result := build rs
        (.report result,
          ⟨insertA st.data_cache cache_key result,
           insertA st.last_fetch_time cache_key now⟩)

/-! ## `backend/ml/trend_predictor.py` : `TrendPredictor`

`historical_data` is a list of `{'date': ..., 'sentiment_score': ...}` dicts,
modelled as `(date, score)` pairs with dates as integers.  `prepare_data`
(lines 32-55) builds a data frame, sorts it by date (`sort_values('ds')`) and
drops duplicate dates (`drop_duplicates(subset=['ds'])`, whose default
`keep='first'` retains the first row of the sorted frame for each date). -/

/-- Comparison on the `ds` column used by `sort_values('ds')`. -/
def dateLe (a b : Int × ℚ) : Prop := a.1 ≤ b.1

instance : DecidableRel dateLe :=
  fun a b => inferInstanceAs (Decidable (a.1 ≤ b.1))

instance : IsTotal (Int × ℚ) dateLe := ⟨fun a b => Int.le_total a.1 b.1⟩

instance : IsTrans (Int × ℚ) dateLe := ⟨fun _ _ _ h₁ h₂ => le_trans h₁ h₂⟩

/-- `TrendPredictor.prepare_data` (lines 32-55): sort ascending by date, then
drop duplicate dates keeping the first row of the sorted frame
(`drop_duplicates` defaults to `keep='first'`).  The sort here is insertion
sort — ONE admissible implementation of `sort_values('ds')`.  Pandas'
default `kind='quicksort'` is documented as not stable, so the relative
order of equal-date rows after the real sort is unspecified in general
(numpy only falls back to a stable insertion sort below its small-array
threshold, which covers the two-element counterexample input below); no
theorem in this file relies on the model's tie order except on that
two-element input. -/
def prepare_data (historical_data : List (Int × ℚ)) : List (Int × ℚ) :=
  dedupBy Prod.fst (List.insertionSort dateLe historical_data)

/-- The value paired with `d` by the LAST entry of `l` carrying date `d`
(what "later overwrites earlier on duplicate dates" would keep). -/
def lastValueAt (l : List (Int × ℚ)) (d : Int) : Option ℚ :=
  ((l.filter (fun p => (p.1 = d : Bool))).getLast?).map Prod.snd

/-- State of a `TrendPredictor` instance.  `model` distinguishes the three
situations the Python object can be in: `none` — `self.model` still holds the
`None` from `__init__`; `some none` — `self.model` was assigned the freshly
constructed Prophet object (line 78) but the `fit` call raised, so it was
never fitted; `some (some df)` — the model was fitted on the prepared frame
`df`. -/
structure TrendState where
  model : Option (Option (List (Int × ℚ)))
  trained_on : Option String
deriving DecidableEq

/-- A freshly constructed `TrendPredictor` (lines 27-30). -/
def initTrendState : TrendState := ⟨none, none⟩

/-- `TrendPredictor.train` (lines 57-96).  `fitOk` records whether the
external `Prophet.fit` call succeeds; the source wraps it in `try/except`
and returns `False` on an exception — but only after `self.model` was already
assigned the Prophet object on line 78. -/
def train (fitOk : Bool) (st : TrendState) (historical_data : List (Int × ℚ))
    (technology : String) : Bool × TrendState :=
  let df := prepare_data historical_data
  if df.length < 10 then (false, st)
  else if fitOk then (true, ⟨some (some df), some technology⟩)
  else (false, ⟨some none, st.trained_on⟩)

/-- Outcome of `TrendPredictor.predict` (lines 98-146) as far as its guard is
concerned.  `modelNotTrained` is the `{'error': 'Model not trained',
'predictions': []}` dict of lines 108-112; `proceeds fitted days` means the
guard was passed and the code went on to call the external Prophet
forecasting routines (`fitted = none` meaning the underlying model object was
never fitted, in which case the library call raises).  The numeric content of
a successful forecast is produced by the external Prophet library and is not
modelled. -/
inductive PredictOutcome where
  | modelNotTrained
  | proceeds (fitted : Option (List (Int × ℚ))) (days : Nat)
deriving DecidableEq

/-- `TrendPredictor.predict`'s guard (lines 108-112): only a `self.model`
still equal to `None` yields the `'Model not trained'` error dict. -/
def predict (st : TrendState) (days_ahead : Nat) : PredictOutcome :=
  match st.model with
  | none => .modelNotTrained
  | some fitted => .proceeds fitted days_ahead

/-! ## `backend/ml/sentiment_analyzer.py` : `DevSentimentAnalyzer`

The transformer pipeline (`self.sentiment_pipeline`) is external ML; it is
modelled as a parameter of type `MLBackend` returning either the base
`{label, score}` result or an exception message (`analyze` wraps the call in
`try/except`).  Everything else — the preprocessing regexes, the guards, the
keyword pattern layer and the final decision — is translated directly.
Several fuelled helpers below scan a character list; each scanning step
consumes one fuel unit and at least one character, so fuel `l.length` never
runs out and the fuel only serves to make the recursion structural. -/

/-- The whitespace characters of Python's `str.split`/`str.strip` and of the
regex class `\s` (ASCII): space, tab, newline, carriage return, vertical tab
(11) and form feed (12). -/
def pyIsSpace (c : Char) : Bool :=
  c = ' ' || c = '\t' || c = '\n' || c = '\r' ||
    c = Char.ofNat 11 || c = Char.ofNat 12

/-- Python `str.strip()` (whitespace from both ends). -/
def pyStrip (l : List Char) : List Char :=
  ((l.dropWhile pyIsSpace).reverse.dropWhile pyIsSpace).reverse

/-- Match the regex branch `http\S+` at the head of the list: literal
`http` followed by at least one non-space character, consuming greedily.
Returns the remainder after the match. -/
def matchHttp : List Char → Option (List Char)
  | 'h' :: 't' :: 't' :: 'p' :: r =>
    match r with
    | [] => none
    | c :: _ =>
      if pyIsSpace c then none
      else some (r.dropWhile (fun x => !(pyIsSpace x)))
  | _ => none

/-- Match the regex branch `www.\S+` at the head of the list: literal `www`,
one arbitrary non-newline character (the unescaped dot), then at least one
non-space character, consuming greedily. -/
def matchWww : List Char → Option (List Char)
  | 'w' :: 'w' :: 'w' :: d :: r =>
    if d = '\n' then none
    else
      match r with
      | [] => none
      | c :: _ =>
        if pyIsSpace c then none
        else some (r.dropWhile (fun x => !(pyIsSpace x)))
  | _ => none

/-- `re.sub(r'http\S+|www.\S+', '', text)`: scan left to right, at each
position try the first branch then the second, drop the leftmost
non-overlapping matches and resume after each match. -/
def stripUrlsF : Nat → List Char → List Char
  | 0, l => l
  | _ + 1, [] => []
  | fuel + 1, c :: rest =>
    match matchHttp (c :: rest) with
    | some rem => stripUrlsF fuel rem
    | none =>
      match matchWww (c :: rest) with
      | some rem => stripUrlsF fuel rem
      | none => c :: stripUrlsF fuel rest

/-- URL removal pass of `preprocess_text` (line 62). -/
def stripUrls (l : List Char) : List Char := stripUrlsF l.length l

/-- The backquote character delimiting Markdown code. -/
def backquote : Char := Char.ofNat 96

/-- Whether the list starts with a triple backquote fence. -/
def startsWithFence : List Char → Bool
  | c1 :: c2 :: c3 :: _ => c1 = backquote && c2 = backquote && c3 = backquote
  | _ => false

/-- Find the earliest closing triple-backquote fence (the non-greedy
`[\s\S]*?`), returning the remainder after it. -/
def afterFenceClose : Nat → List Char → Option (List Char)
  | 0, _ => none
  | _ + 1, [] => none
  | fuel + 1, c :: rest =>
    if startsWithFence (c :: rest) then some ((c :: rest).drop 3)
    else afterFenceClose fuel rest

/-- Fenced-code removal: `re.sub(r'<fence>[\s\S]*?<fence>', '', text)` with
`<fence>` a triple backquote (line 65).  An unclosed fence does not match and
scanning resumes at the next character. -/
def stripFencesF : Nat → List Char → List Char
  | 0, l => l
  | _ + 1, [] => []
  | fuel + 1, c :: rest =>
    if startsWithFence (c :: rest) then
      match afterFenceClose ((c :: rest).drop 3).length ((c :: rest).drop 3)
          with
      | some rem => stripFencesF fuel rem
      | none => c :: stripFencesF fuel rest
    else c :: stripFencesF fuel rest

/-- Fenced-code removal pass of `preprocess_text` (line 65). -/
def stripFences (l : List Char) : List Char := stripFencesF l.length l

/-- Find the next backquote (the closing delimiter of `[^<bq>]*<bq>`),
returning the remainder after it. -/
def afterInlineClose : Nat → List Char → Option (List Char)
  | 0, _ => none
  | _ + 1, [] => none
  | fuel + 1, c :: rest =>
    if c = backquote then some rest else afterInlineClose fuel rest

/-- Inline-code removal: `re.sub(r'<bq>[^<bq>]*<bq>', '', text)` with `<bq>`
a backquote (line 66). -/
def stripInlineF : Nat → List Char → List Char
  | 0, l => l
  | _ + 1, [] => []
  | fuel + 1, c :: rest =>
    if c = backquote then
      match afterInlineClose rest.length rest with
      | some rem => stripInlineF fuel rem
      | none => c :: stripInlineF fuel rest
    else c :: stripInlineF fuel rest

/-- Inline-code removal pass of `preprocess_text` (line 66). -/
def stripInlineCode (l : List Char) : List Char := stripInlineF l.length l

/-- Python `text.split()`: the maximal non-whitespace runs, in order. -/
def pyWordsF : Nat → List Char → List (List Char)
  | 0, _ => []
  | _ + 1, [] => []
  | fuel + 1, c :: rest =>
    if pyIsSpace c then pyWordsF fuel rest
    else
      (c :: rest.takeWhile (fun x => !(pyIsSpace x)))
        :: pyWordsF fuel (rest.dropWhile (fun x => !(pyIsSpace x)))

/-- Python `text.split()` on a char list. -/
def pyWords (l : List Char) : List (List Char) := pyWordsF l.length l

/-- `DevSentimentAnalyzer.preprocess_text` (lines 56-71): empty text stays
empty; otherwise remove URLs, fenced code, inline code, collapse whitespace
(`' '.join(text.split())`) and truncate to 512 characters. -/
def preprocess_text (text : String) : String :=
  if text = "" then ""
  else
    let l1 := stripUrls text.toList
    let l2 := stripFences l1
    let l3 := stripInlineCode l2
    let joined := List.intercalate [' '] (pyWords l3)
    String.mk (joined.take 512)

/-- The apostrophe character. -/
def apostrophe : Char := Char.ofNat 39

/-- `frustration_patterns['critical']` (line 43). -/
def frustration_critical : List String :=
  ["wtf", "garbage", "terrible", "useless", "worst"]

/-- `frustration_patterns['high']` (line 44); the last entry is the string
doesn&apos;t work, built here with an explicit apostrophe character. -/
def frustration_high : List String :=
  ["bug", "broken", "crash", "error", "failed",
   "doesn" ++ String.mk [apostrophe] ++ "t work"]

/-- `frustration_patterns['medium']` (line 45). -/
def frustration_medium : List String :=
  ["issue", "problem", "confused", "struggling", "help"]

/-- `satisfaction_patterns['high']` (line 49). -/
def satisfaction_high : List String :=
  ["love", "amazing", "awesome", "excellent", "perfect"]

/-- `satisfaction_patterns['medium']` (line 50). -/
def satisfaction_medium : List String :=
  ["good", "nice", "works", "helpful", "thanks"]

/-- `satisfaction_patterns['low']` (line 51); present in the source dict but
never consulted by `detect_satisfaction_level`. -/
def satisfaction_low : List String := ["ok", "fine", "decent"]

/-- `sum(1 for word in words if word in text_lower)`: how many words of the
pattern list occur as substrings of the lowered text. -/
def wordHits (words : List String) (text_lower : List Char) : Nat :=
  words.countP (fun w => hasSub w.toList text_lower)

/-- `DevSentimentAnalyzer.detect_frustration_level` (lines 73-102). -/
def detect_frustration_level (text : String) : String × ℚ :=
  let tl := (pyLower text).toList
  if 1 ≤ wordHits frustration_critical tl then ("critical", 95 / 100)
  else if 2 ≤ wordHits frustration_high tl then ("high", 85 / 100)
  else if wordHits frustration_high tl = 1 then ("medium", 65 / 100)
  else if 2 ≤ wordHits frustration_medium tl then ("medium", 70 / 100)
  else ("low", 30 / 100)

/-- `DevSentimentAnalyzer.detect_satisfaction_level` (lines 104-122). -/
def detect_satisfaction_level (text : String) : String × ℚ :=
  let tl := (pyLower text).toList
  if 1 ≤ wordHits satisfaction_high tl then ("high", 90 / 100)
  else if 2 ≤ wordHits satisfaction_medium tl then ("medium", 75 / 100)
  else if wordHits satisfaction_medium tl = 1 then ("low", 60 / 100)
  else ("none", 40 / 100)

/-- Python `str.capitalize()`: first character upper-cased, rest lowered. -/
def pyCapitalize (s : String) : String :=
  match s.toList with
  | [] => ""
  | c :: t => String.mk (c.toUpper :: t.map Char.toLower)

/-- The base `{label, score}` produced by `self.sentiment_pipeline(...)[0]`. -/
structure MLOut where
  label : String
  score : ℚ
deriving DecidableEq

/-- The external transformer backend: maps the cleaned text either to a base
result or to an exception message (caught by `analyze`'s `try/except`). -/
def MLBackend : Type := String → Except String MLOut

/-- The fields of `analyze`'s result dicts used by the claims.  On the
successful-ML branches the source dict additionally carries
`base_sentiment`, `base_score`, `frustration_level` and `satisfaction_level`;
no claim mentions them and they are determined by `detect_frustration_level`,
`detect_satisfaction_level` and the backend output. -/
structure AnalysisResult where
  label : String
  score : ℚ
  confidence : String
  reasoning : String
deriving DecidableEq

/-- The guard result of `analyze` lines 134-140. -/
def tooShortResult : AnalysisResult :=
  ⟨"NEUTRAL", 1 / 2, "low", "Text too short for analysis"⟩

/-- The guard result of `analyze` lines 145-151. -/
def emptyCleanResult : AnalysisResult :=
  ⟨"NEUTRAL", 1 / 2, "low", "No meaningful text after preprocessing"⟩

/-- The `except` result of `analyze` lines 156-163 (pipeline raised). -/
def analysisFailedResult : AnalysisResult :=
  ⟨"NEUTRAL", 1 / 2, "low", "Analysis failed"⟩

/-- `label_map.get(base_result['label'], 'NEUTRAL')` of lines 196-202. -/
def label_map (l : String) : String :=
  if l = "POSITIVE" then "POSITIVE"
  else if l = "NEGATIVE" then "NEGATIVE"
  else "NEUTRAL"

/-- `DevSentimentAnalyzer.analyze` (lines 124-210): short-text guard on the
RAW text, preprocessing, empty-clean guard, the transformer call in
`try/except` (returning the fixed neutral dict on an exception), then the
keyword layer — critical/high frustration wins, then high satisfaction, else
the mapped base label.  The keyword detectors run on the RAW `text`, not on
`clean_text` (lines 166-167). -/
def analyze (ml : MLBackend) (text : String) : AnalysisResult :=
  if text = "" ∨ (pyStrip text.toList).length < 5 then tooShortResult
  else
    let clean_text := preprocess_text text
    if clean_text = "" then emptyCleanResult
    else
      match ml clean_text with
      | .error _ => analysisFailedResult
      | .ok base =>
        let fr := detect_frustration_level text
        let sat := detect_satisfaction_level text
        if fr.1 = "critical" ∨ fr.1 = "high" then
          ⟨"FRUSTRATED", fr.2, "high",
            pyCapitalize fr.1 ++ " frustration detected"⟩
        else if sat.1 = "high" then
          ⟨"SATISFIED", sat.2, "high", "High satisfaction detected"⟩
        else
          ⟨label_map base.label, base.score, "medium",
            "Base transformer classification"⟩

/-- The claim's "frustration lexicon": the union of the frustration pattern
lists. -/
def frustrationLexicon : List String :=
  frustration_critical ++ frustration_high ++ frustration_medium

/-- The claim's "positive lexicon": the union of the satisfaction pattern
lists. -/
def positiveLexicon : List String :=
  satisfaction_high ++ satisfaction_medium ++ satisfaction_low

/-! ## `backend/ml/anomaly_detector.py` : `detect_statistical_anomalies`

`_to_dataframe` sorts the `(date, value)` series by date (values are exact
rationals here, so the `dropna` on unparseable values is vacuous).  The
source computes `std = df['y'].std(ddof=0)` — the population standard
deviation, i.e. the square root of `qPopVar` — returns `[]` when it is zero
(which, for one data point, the source forces by setting `std = 0.0`), and
flags a row exactly when `|z| >= z_thresh` with
`z = (y - mean)/std`.  Square roots do not exist in `ℚ`, so the embedded
filter uses the exactly equivalent square form
`z_thresh * |z_thresh| * var ≤ (y - mean)^2` (for a nonnegative threshold
both sides of `|z| ≥ t` square to this; for a negative threshold both are
always true); the claim theorem re-states the flag condition in `ℝ` with the
genuine `z`-score and proves the two agree. -/

/-- Mean of a list of rationals (`df['y'].mean()`; 0 on the empty list,
where the source never consults it). -/
def qMean (l : List ℚ) : ℚ := l.sum / l.length

/-- Population variance (`ddof=0`): mean squared deviation from the mean. -/
def qPopVar (l : List ℚ) : ℚ :=
  (l.map (fun y => (y - qMean l) ^ 2)).sum / l.length

/-- One anomaly record of `detect_statistical_anomalies` (lines 78-86):
date, value and kind (the numeric `z_score` field needs the real square
root; its sign and the flag condition are captured by `kind` and the filter
condition). -/
structure StatAnomaly where
  date : Int
  value : ℚ
  kind : String
deriving DecidableEq

/-- `AnomalyDetector.detect_statistical_anomalies` (lines 60-86): sort by
date, return `[]` on an empty frame or zero standard deviation, otherwise
flag the rows with `|z| >= z_thresh` (square form, see above), `spike` when
`z > 0` — equivalently when the value exceeds the mean — else `drop`. -/
def detect_statistical_anomalies (historical_data : List (Int × ℚ))
    (z_thresh : ℚ) : List StatAnomaly :=
  let df := List.insertionSort dateLe historical_data
  if df.isEmpty then []
  else
    let vals := df.map Prod.snd
    let mean := qMean vals
    let pvar := qPopVar vals
    if pvar = 0 then []
    else
      (df.filter
          (fun p => decide (z_thresh * |z_thresh| * pvar ≤ (p.2 - mean) ^ 2))
        ).map
        (fun p => ⟨p.1, p.2, if mean < p.2 then "spike" else "drop"⟩)

/-! ## `backend/ml/sentiment_analyzer.py` : `aggregate_sentiment`

The per-result dicts are consumed through their `label` and `score` keys
only. `label_counts` is a Python dict built by
`label_counts[label] = label_counts.get(label, 0) + 1` inside a single loop
over the results; dicts preserve insertion order, so it is an association
list in first-seen label order, modelled by folding `bump`.  The same loop
accumulates `total_score` and the frustrated/satisfied counters; the folds
below are its per-field projections.  `max(label_counts,
key=label_counts.get)` iterates the keys in insertion order and keeps the
first key whose count is strictly greater than the current best's, i.e. the
first-seen label among those of maximal count (`argmaxGo`). -/

/-- One sentiment result as consumed by `aggregate_sentiment` (the `label`
and `score` keys of `analyze`'s output). -/
structure SentimentResult where
  label : String
  score : ℚ
deriving DecidableEq

/-- `label_counts[label] = label_counts.get(label, 0) + 1` on an
insertion-ordered dict: update the existing entry or append a new one. -/
def bump (acc : List (String × Nat)) (l : String) : List (String × Nat) :=
  match acc with
  | [] => [(l, 1)]
  | (k, n) :: t => if k = l then (k, n + 1) :: t else (k, n) :: bump t l

/-- The loop of Python `max(..., key=...)`: replace the best only on a
strictly greater count, so the first maximal entry wins. -/
def argmaxGo (best : String × Nat) : List (String × Nat) → String × Nat
  | [] => best
  | q :: r => argmaxGo (if best.2 < q.2 then q else best) r

/-- `max(label_counts, key=label_counts.get)`: the first key of maximal
count in insertion order (`none` on the empty dict, where Python would
raise; `aggregate_sentiment` only calls it on a non-empty dict). -/
def firstArgmax : List (String × Nat) → Option String
  | [] => none
  | p :: t => some (argmaxGo p t).1

/-- The dict returned by `aggregate_sentiment` (lines 237-279).
`total_analyzed` and `dominant_sentiment` are absent (`none`) in the
empty-input default of lines 244-250. -/
structure AggregateOut where
  average_score : ℚ
  sentiment_distribution : List (String × ℚ)
  frustration_rate : ℚ
  satisfaction_rate : ℚ
  total_analyzed : Option Nat
  dominant_sentiment : Option String
deriving DecidableEq

/-- `DevSentimentAnalyzer.aggregate_sentiment` (lines 237-279).  The
frustrated/satisfied counters use `if label == 'FRUSTRATED' ... elif label ==
'SATISFIED'`; as the two labels are distinct, they are the two `countP`s. -/
def aggregate_sentiment (results : List SentimentResult) : AggregateOut :=
  if results.isEmpty then ⟨1 / 2, [], 0, 0, none, none⟩
  else
    let total := results.length
    let label_counts := results.foldl (fun acc r => bump acc r.label) []
    let total_score := results.foldl (fun s r => s + r.score) 0
    let frustrated_count := results.countP (fun r => r.label = "FRUSTRATED")
    let satisfied_count := results.countP (fun r => r.label = "SATISFIED")
    ⟨total_score / total,
     label_counts.map (fun p => (p.1, (p.2 : ℚ) / total)),
     (frustrated_count : ℚ) / total,
     (satisfied_count : ℚ) / total,
     some total,
     firstArgmax label_counts⟩

/-- How many of the results carry label `l` (specification helper). -/
def countLabel (results : List SentimentResult) (l : String) : Nat :=
  results.countP (fun r => r.label = l)

/-- First-match count lookup in a counts list, 0 when absent (Python
`dict.get(k, 0)`; specification helper). -/
def listLookup : List (String × Nat) → String → Nat
  | [], _ => 0
  | (k, n) :: t, key => if k = key then n else listLookup t key

/-- The keys of a counts list, in order (specification helper). -/
def keysOf (m : List (String × Nat)) : List String := m.map Prod.fst

/-- The sum of the counts (specification helper). -/
def sumCounts (m : List (String × Nat)) : Nat := (m.map Prod.snd).sum

/-! ## `backend/api/data_processor.py` : `aggregate_daily_metrics`

The incoming frame rows carry a technology, a date and a text (the other
columns are not consulted here).  `aggregate_daily_metrics` assigns
`df['sentiment_label']` positionally from `sentiment_results` (pandas
requires the lengths to match, hence the zip), maps labels through the fixed
numeric scale (`.map` yields NaN for an unmapped label, and the groupwise
`mean` skips NaN — hence the `filterMap`), groups by `(technology, date)`
(pandas sorts the group keys), and per group emits the mean numeric score,
the count of the (never-null, so always counted) `text` column — the group
size — and the modal label (`x.mode()[0]`: pandas `mode` lists the most
frequent values sorted ascending, so `[0]` is the lexicographically smallest
of them; `'NEUTRAL'` guards the empty group, which cannot occur). -/

/-- One row of the combined frame as consumed by `aggregate_daily_metrics`. -/
structure InRow where
  technology : String
  date : Int
  text : String
deriving DecidableEq

/-- One row of the returned daily-metrics frame (lines 178-187). -/
structure DailyMetric where
  technology : String
  date : Int
  sentiment_score : ℚ
  record_count : Nat
  dominant_sentiment : String
deriving DecidableEq

/-- The fixed `label_to_score` map of lines 168-174 (`none` models the NaN a
pandas `.map` produces for a missing key). -/
def label_to_score (l : String) : Option ℚ :=
  if l = "SATISFIED" then some 90
  else if l = "POSITIVE" then some 75
  else if l = "NEUTRAL" then some 50
  else if l = "NEGATIVE" then some 25
  else if l = "FRUSTRATED" then some 10
  else none

/-- Lexicographic order on the `(technology, date)` group keys (pandas
`groupby` sorts group keys ascending). -/
def keyLe (a b : String × Int) : Prop :=
  a.1 < b.1 ∨ (a.1 = b.1 ∧ a.2 ≤ b.2)

instance : DecidableRel keyLe :=
  fun a b =>
    inferInstanceAs (Decidable (a.1 < b.1 ∨ (a.1 = b.1 ∧ a.2 ≤ b.2)))

/-- `x.mode()[0]` with the `'NEUTRAL'` default: the lexicographically
smallest among the most frequent labels. -/
def modeMin (ls : List String) : String :=
  match dedupBy id ls with
  | [] => "NEUTRAL"
  | h :: t =>
    t.foldl (fun best x =>
      if ls.countP (fun y => y = best) < ls.countP (fun y => y = x)
          ∨ (ls.countP (fun y => y = x) = ls.countP (fun y => y = best)
             ∧ x < best)
      then x else best) h

/-- `DataProcessor.aggregate_daily_metrics` (lines 148-187). -/
def aggregate_daily_metrics (rows : List InRow)
    (sentiment_results : List SentimentResult) : List DailyMetric :=
  let tagged := rows.zip sentiment_results
  let keys := dedupBy id (tagged.map (fun p => (p.1.technology, p.1.date)))
  let skeys := List.insertionSort keyLe keys
  skeys.map (fun k =>
    let grp := tagged.filter
      (fun p => (p.1.technology = k.1 ∧ p.1.date = k.2 : Bool))
    let nums := grp.filterMap (fun p => label_to_score p.2.label)
    { technology := k.1, date := k.2,
      sentiment_score := nums.sum / nums.length,
      record_count := grp.length,
      dominant_sentiment := modeMin (grp.map (fun p => p.2.label)) })

end DevPulse

namespace DevPulse

/-! ## Theorems for claims C1, C5, C9 -/

/-- Claim C1 as stated by the spec: a recomputation that finds zero records
would still return a well-formed report, never an error value. -/
def C1Spec : Prop :=
  ∀ (build : List Unit → Nat) (tech : String) (force : Bool) (now : Int)
    (st : ServerState Nat),
    isErrorDict (get_cached_or_fetch build (.rows []) tech force now st).1
      = false

/-- Claim C1 is false on the code: with an empty cache and zero collected
records, `get_cached_or_fetch` returns the error dict
`{'error': 'No data available', 'technology': 'react'}` (`server.py`
lines 95-99), which the route handler then surfaces as an HTTP error. -/
theorem claim_C1_counterexample : ¬ C1Spec := by
  intro h
  have := h (fun _ => 0) "react" true 0 ⟨[], []⟩
  simp [get_cached_or_fetch, isErrorDict] at this

/-- Claim C1 (amended): if the recomputation inside `get_cached_or_fetch`
obtains zero records (the combined data frame is empty), the function returns
the error dictionary `{'error': 'No data available', 'technology': tech}` and
leaves both cache dicts unchanged — both on a forced refresh and on a cache
miss.  The caller thus receives an explicit error value, not a degraded
well-formed report. -/
theorem claim_C1_amended {α ρ : Type} (build : List α → ρ) (tech : String)
    (now : Int) (st : ServerState ρ) :
    get_cached_or_fetch build (.rows []) tech true now st
      = (.errorDict "No data available" tech, st)
    ∧ (cacheHit st (pyLower tech) now = none →
        get_cached_or_fetch build (.rows []) tech false now st
          = (.errorDict "No data available" tech, st)) := by
  constructor
  · simp [get_cached_or_fetch]
  · intro h
    simp [get_cached_or_fetch, h]

/-- Witness for claim C1 (amended) at a concrete state with an empty cache. -/
theorem claim_C1_amended_witness :
    cacheHit (⟨[], []⟩ : ServerState Nat) (pyLower "React") 5 = none
    ∧ get_cached_or_fetch (fun _ : List Unit => 0) (.rows []) "React" false 5
        (⟨[], []⟩ : ServerState Nat)
        = (.errorDict "No data available" "React", ⟨[], []⟩) :=
  ⟨rfl, (claim_C1_amended (fun _ : List Unit => 0) "React" 5 ⟨[], []⟩).2 rfl⟩

/-- Claim C5 (confirmed): with `force_refresh = false` and a fresh cache entry
(age strictly below the 6-hour TTL), `get_cached_or_fetch` returns the cached
report unchanged with no recomputation and no collector calls (the result and
state are independent of `env` and `build`); with `force_refresh = true`, or
when the entry is stale or missing, the recomputation runs, and when it
produces a report from a non-empty record set, that report replaces the cache
entry (both dicts are overwritten at the key) and is returned. -/
theorem claim_C5 {α ρ : Type} (build : List α → ρ) (env : FetchOutcome α)
    (tech : String) (now : Int) (st : ServerState ρ) (r : ρ) (rs : List α) :
    (cacheHit st (pyLower tech) now = some r →
      get_cached_or_fetch build env tech false now st = (.report r, st))
    ∧ (rs ≠ [] →
        get_cached_or_fetch build (.rows rs) tech true now st
          = (.report (build rs),
             ⟨insertA st.data_cache (pyLower tech) (build rs),
              insertA st.last_fetch_time (pyLower tech) now⟩))
    ∧ (rs ≠ [] → cacheHit st (pyLower tech) now = none →
        get_cached_or_fetch build (.rows rs) tech false now st
          = (.report (build rs),
             ⟨insertA st.data_cache (pyLower tech) (build rs),
              insertA st.last_fetch_time (pyLower tech) now⟩)) := by
  refine ⟨fun h => ?_, fun hrs => ?_, fun hrs h => ?_⟩
  · simp [get_cached_or_fetch, h]
  · simp [get_cached_or_fetch, List.isEmpty_iff, hrs]
  · simp [get_cached_or_fetch, List.isEmpty_iff, h, hrs]

/-- Witness for claim C5: a concrete fresh cache hit (age 100 s < 21600 s) is
returned unchanged regardless of the fetch environment, and a forced refresh
on the same state replaces the entry. -/
theorem claim_C5_witness :
    (cacheHit (⟨[("react", 7)], [("react", 100)]⟩ : ServerState Nat)
        (pyLower "React") 200 = some 7
      ∧ get_cached_or_fetch (fun _ : List Unit => 9) (.raises "down") "React"
          false 200 ⟨[("react", 7)], [("react", 100)]⟩
          = (.report 7, ⟨[("react", 7)], [("react", 100)]⟩))
    ∧ get_cached_or_fetch (fun _ : List Unit => 9) (.rows [()]) "React"
        true 200 ⟨[("react", 7)], [("react", 100)]⟩
        = (.report 9, ⟨insertA [("react", 7)] "react" 9,
                       insertA [("react", 100)] "react" 200⟩) := by
  refine ⟨⟨by decide, ?_⟩, ?_⟩
  · exact (claim_C5 (fun _ : List Unit => 9) (.raises "down") "React" 200
      ⟨[("react", 7)], [("react", 100)]⟩ 7 [()]).1 (by decide)
  · exact (claim_C5 (fun _ : List Unit => 9) (.rows [()]) "React" 200
      ⟨[("react", 7)], [("react", 100)]⟩ 7 [()]).2.1 (by decide)

/-- Claim C9 (confirmed): if any exception is raised during the recomputation
inside `get_cached_or_fetch`, the function leaves the whole cache state (both
the report dict and the last-fetch-time dict) exactly as it was, and — when
the recomputation actually ran, i.e. no fresh cache hit short-circuited it —
returns the error dictionary carrying the exception message.  A previously
cached report is neither removed nor replaced by the failure. -/
theorem claim_C9 {α ρ : Type} (build : List α → ρ) (msg : String)
    (tech : String) (force : Bool) (now : Int) (st : ServerState ρ) :
    (get_cached_or_fetch build (.raises msg : FetchOutcome α) tech force now
        st).2 = st
    ∧ (¬ (force = false ∧ (cacheHit st (pyLower tech) now).isSome) →
        get_cached_or_fetch build (.raises msg : FetchOutcome α) tech force
          now st = (.errorDict msg tech, st)) := by
  constructor
  · cases force
    · simp only [get_cached_or_fetch, Bool.false_eq_true, if_false]
      cases h : cacheHit st (pyLower tech) now <;> simp
    · simp [get_cached_or_fetch]
  · intro h
    cases force
    · rcases ho : cacheHit st (pyLower tech) now with _ | r
      · simp [get_cached_or_fetch, ho]
      · exact absurd ⟨rfl, by simp [ho]⟩ h
    · simp [get_cached_or_fetch]

/-- Witness for claim C9: a concrete failing recomputation (forced refresh on
a populated cache) returns the error dict and leaves the cache intact. -/
theorem claim_C9_witness :
    get_cached_or_fetch (fun _ : List Unit => 7) (.raises "boom") "react" true
      50 (⟨[("react", 3)], [("react", 10)]⟩ : ServerState Nat)
      = (.errorDict "boom" "react", ⟨[("react", 3)], [("react", 10)]⟩) :=
  (claim_C9 (fun _ : List Unit => 7) "boom" "react" true 50
    ⟨[("react", 3)], [("react", 10)]⟩).2 (by decide)

/-! ## Lemmas about `dedupBy` and sorting stability -/

theorem dedupByF_sublist {α κ : Type} [DecidableEq κ] (key : α → κ) :
    ∀ (fuel : Nat) (l : List α), List.Sublist (dedupByF key fuel l) l
  | 0, l => List.nil_sublist l
  | _ + 1, [] => List.nil_sublist []
  | fuel + 1, p :: t =>
    ((dedupByF_sublist key fuel _).trans (List.filter_sublist t)).cons₂ p

theorem dedupBy_sublist {α κ : Type} [DecidableEq κ] (key : α → κ)
    (l : List α) : List.Sublist (dedupBy key l) l :=
  dedupByF_sublist key l.length l

theorem mem_of_mem_dedupBy {α κ : Type} [DecidableEq κ] {key : α → κ}
    {l : List α} {a : α} (h : a ∈ dedupBy key l) : a ∈ l :=
  (dedupBy_sublist key l).subset h

theorem dedupByF_keys_nodup {α κ : Type} [DecidableEq κ] (key : α → κ) :
    ∀ (fuel : Nat) (l : List α), ((dedupByF key fuel l).map key).Nodup
  | 0, _ => by simp [dedupByF]
  | _ + 1, [] => by simp [dedupByF]
  | fuel + 1, p :: t => by
    rw [dedupByF, List.map_cons, List.nodup_cons]
    refine ⟨fun hmem => ?_, dedupByF_keys_nodup key fuel _⟩
    rcases List.mem_map.1 hmem with ⟨q, hq, hkq⟩
    have hqf := (dedupByF_sublist key fuel _).subset hq
    have := (List.mem_filter.1 hqf).2
    simp only [Bool.not_eq_true', decide_eq_false_iff_not] at this
    exact this hkq

theorem dedupBy_keys_nodup {α κ : Type} [DecidableEq κ] (key : α → κ)
    (l : List α) : ((dedupBy key l).map key).Nodup :=
  dedupByF_keys_nodup key l.length l

theorem mem_keys_dedupByF {α κ : Type} [DecidableEq κ] (key : α → κ) :
    ∀ (fuel : Nat) (l : List α) (k : κ), l.length ≤ fuel →
      k ∈ l.map key → k ∈ (dedupByF key fuel l).map key
  | 0, l, k, hf, h => by
    rw [List.length_eq_zero.1 (Nat.le_zero.1 hf)] at h
    simp at h
  | _ + 1, [], k, _, h => by simp at h
  | fuel + 1, p :: t, k, hf, h => by
    rw [dedupByF, List.map_cons]
    rcases List.mem_cons.1 h with hk | hk
    · exact hk ▸ List.mem_cons_self _ _
    · by_cases hkp : k = key p
      · exact hkp ▸ List.mem_cons_self _ _
      · have hf' : (t.filter (fun q => !(key q = key p : Bool))).length ≤
            fuel := by
          have ht : t.length ≤ fuel := by
            simpa [List.length_cons, Nat.succ_le_succ_iff] using hf
          exact le_trans (List.length_filter_le _ t) ht
        refine List.mem_cons_of_mem _ (mem_keys_dedupByF key fuel _ k hf' ?_)
        rcases List.mem_map.1 hk with ⟨a, ha, hak⟩
        refine List.mem_map.2 ⟨a, List.mem_filter.2 ⟨ha, ?_⟩, hak⟩
        simp only [Bool.not_eq_true', decide_eq_false_iff_not]
        exact fun hc => hkp (hak ▸ hc ▸ rfl)

theorem mem_keys_dedupBy {α κ : Type} [DecidableEq κ] (key : α → κ)
    (l : List α) (k : κ) (h : k ∈ l.map key) :
    k ∈ (dedupBy key l).map key :=
  mem_keys_dedupByF key l.length l k (le_refl _) h

/-! ## Theorems for claim C3 -/

/-- Claim C3 as stated by the spec: `prepare_data` output is sorted ascending
by date, holds at most one entry per date, and on duplicate dates keeps the
value of the LAST entry of the input. -/
def C3Spec : Prop :=
  ∀ l : List (Int × ℚ),
    (prepare_data l).Pairwise (fun a b => a.1 < b.1)
    ∧ ∀ d v, (d, v) ∈ prepare_data l → lastValueAt l d = some v

/-- Claim C3 is false on the code: on the input `[(5, 10), (5, 20)]` the
pandas pipeline (`sort_values` then `drop_duplicates(subset=['ds'])` with the
default `keep='first'`, `trend_predictor.py` lines 50-53) keeps `(5, 10)`,
the EARLIER entry, whereas the claim requires the later value `20` to
overwrite it.  (On a two-element frame numpy's sort is its stable
insertion-sort fallback, so the model's evaluation of this input agrees with
the program.) -/
theorem claim_C3_counterexample : ¬ C3Spec := by
  intro h
  have h2 := (h [(5, 10), (5, 20)]).2 5 10 (by decide)
  exact absurd h2 (by decide)

/-- Deduplicating any date-ordered permutation of the input by date yields a
strictly date-sorted selection of input entries covering every input date.
This is the part of `prepare_data`'s behaviour that does not depend on the
(unspecified) tie order of the unstable sort. -/
theorem dedup_sorted_date_spec (s l : List (Int × ℚ)) (hperm : s.Perm l)
    (hsort : s.Pairwise dateLe) :
    (dedupBy Prod.fst s).Pairwise (fun a b => a.1 < b.1)
    ∧ (∀ p ∈ dedupBy Prod.fst s, p ∈ l)
    ∧ (∀ p ∈ l, ∃ v, (p.1, v) ∈ dedupBy Prod.fst s) := by
  refine ⟨?_, ?_, ?_⟩
  · have h1 : (dedupBy Prod.fst s).Pairwise dateLe :=
      hsort.sublist (dedupBy_sublist Prod.fst s)
    have h2 : ((dedupBy Prod.fst s).map Prod.fst).Nodup :=
      dedupBy_keys_nodup Prod.fst s
    have h3 : (dedupBy Prod.fst s).Pairwise (fun a b => a.1 ≠ b.1) :=
      (List.pairwise_map).1 h2
    exact (h1.and h3).imp (fun h => lt_of_le_of_ne h.1 h.2)
  · intro p hp
    exact hperm.subset (mem_of_mem_dedupBy hp)
  · intro p hp
    have hps : p ∈ s := hperm.mem_iff.2 hp
    have hk : p.1 ∈ s.map Prod.fst := List.mem_map.2 ⟨p, hps, rfl⟩
    have hk2 := mem_keys_dedupBy Prod.fst s p.1 hk
    rcases List.mem_map.1 hk2 with ⟨q, hq, hq1⟩
    refine ⟨q.2, ?_⟩
    rw [← hq1]
    exact Prod.mk.eta ▸ hq

/-- Claim C3 (amended): `prepare_data` returns a sequence strictly sorted
ascending by date (hence with at most one entry per date), every kept pair
is one of the input's entries, and every input date is represented.  These
properties are proved for EVERY function `sortv` that date-orders a
permutation of its input — i.e. for anything pandas' unstable default sort
may produce, which guarantees nothing about the relative order of equal-date
rows — and, in the second half, for the file's concrete insertion-sort
model of `prepare_data` as an instance.  Which entry among duplicate dates
survives `drop_duplicates(keep='first')` is therefore left unspecified; the
counterexample shows it is not in general the LAST one. -/
theorem claim_C3_amended (sortv : List (Int × ℚ) → List (Int × ℚ))
    (hperm : ∀ l, (sortv l).Perm l)
    (hsort : ∀ l, (sortv l).Pairwise dateLe) (l : List (Int × ℚ)) :
    ((dedupBy Prod.fst (sortv l)).Pairwise (fun a b => a.1 < b.1)
      ∧ (∀ p ∈ dedupBy Prod.fst (sortv l), p ∈ l)
      ∧ (∀ p ∈ l, ∃ v, (p.1, v) ∈ dedupBy Prod.fst (sortv l)))
    ∧ ((prepare_data l).Pairwise (fun a b => a.1 < b.1)
      ∧ (∀ p ∈ prepare_data l, p ∈ l)
      ∧ (∀ p ∈ l, ∃ v, (p.1, v) ∈ prepare_data l)) :=
  ⟨dedup_sorted_date_spec (sortv l) l (hperm l) (hsort l),
   dedup_sorted_date_spec (List.insertionSort dateLe l) l
     (List.perm_insertionSort dateLe l) (List.sorted_insertionSort dateLe l)⟩

/-- Witness for claim C3 (amended) on a concrete input with a duplicate
date: the output is strictly date-sorted and date 3 is represented. -/
theorem claim_C3_amended_witness :
    (prepare_data [(3, 7), (1, 2), (3, 9)]).Pairwise
      (fun a b => a.1 < b.1)
    ∧ ∃ v, ((3 : Int), v) ∈ prepare_data [(3, 7), (1, 2), (3, 9)] :=
  ⟨(claim_C3_amended (List.insertionSort dateLe)
      (List.perm_insertionSort dateLe) (List.sorted_insertionSort dateLe)
      [(3, 7), (1, 2), (3, 9)]).2.1,
   (claim_C3_amended (List.insertionSort dateLe)
      (List.perm_insertionSort dateLe) (List.sorted_insertionSort dateLe)
      [(3, 7), (1, 2), (3, 9)]).2.2.2 (3, 7) (by decide)⟩

/-! ## Theorems for claim C6 -/

/-- Claim C6 as stated by the spec: a `train` call on fewer than 10 distinct
dated points returns false leaving the state untouched, and `predict` after
any unsuccessful `train` (from a fresh predictor) yields the
`'Model not trained'` error. -/
def C6Spec : Prop :=
  (∀ (fitOk : Bool) (st : TrendState) (data : List (Int × ℚ))
      (tech : String), (prepare_data data).length < 10 →
      train fitOk st data tech = (false, st))
  ∧ ∀ (fitOk : Bool) (data : List (Int × ℚ)) (tech : String) (days : Nat),
      (train fitOk initTrendState data tech).1 = false →
      predict (train fitOk initTrendState data tech).2 days
        = .modelNotTrained

/-- Claim C6 is false on the code: `self.model = Prophet(...)` is assigned on
line 78 BEFORE the `try: self.model.fit(df)` of lines 89-96, so a `train`
call on 10 distinct dates whose fit raises returns `False` yet leaves
`self.model` set; the subsequent `predict` then passes the
`if not self.model` guard instead of returning the `'Model not trained'`
dict. -/
theorem claim_C6_counterexample : ¬ C6Spec := by
  intro h
  have h2 := h.2 false
    [(0, 50), (1, 50), (2, 50), (3, 50), (4, 50), (5, 50), (6, 50), (7, 50),
     (8, 50), (9, 50)] "react" 7 (by decide)
  exact absurd h2 (by decide)

/-- Claim C6 (amended): `train` on fewer than 10 distinct dated points
returns false and leaves the state (so in particular an unset model) exactly
as it was; `predict` while the model is unset returns the
`'Model not trained'` error, so it does so after any sequence of sub-10-point
`train` calls on a fresh predictor; but a `train` call on at least 10
distinct dates whose external Prophet fit raises also returns false while
assigning the (unfitted) model object, after which `predict` no longer
reports `'Model not trained'`. -/
theorem claim_C6_amended :
    (∀ (fitOk : Bool) (st : TrendState) (data : List (Int × ℚ))
        (tech : String), (prepare_data data).length < 10 →
        train fitOk st data tech = (false, st))
    ∧ (∀ (st : TrendState) (days : Nat), st.model = none →
        predict st days = .modelNotTrained)
    ∧ (∀ (fitOk : Bool) (data : List (Int × ℚ)) (tech : String)
        (days : Nat), (prepare_data data).length < 10 →
        predict (train fitOk initTrendState data tech).2 days
          = .modelNotTrained)
    ∧ (∀ (data : List (Int × ℚ)) (tech : String) (days : Nat),
        10 ≤ (prepare_data data).length →
        train false initTrendState data tech
          = (false, ⟨some none, none⟩)
        ∧ predict (train false initTrendState data tech).2 days
          = .proceeds none days) := by
  refine ⟨fun fitOk st data tech h => ?_, fun st days h => ?_,
    fun fitOk data tech days h => ?_, fun data tech days h => ?_⟩
  · simp [train, h]
  · simp [predict, h]
  · simp [train, h, predict, initTrendState]
  · have hn : ¬ (prepare_data data).length < 10 := not_lt.2 h
    constructor
    · simp [train, hn, initTrendState]
    · simp [train, hn, initTrendState, predict]

/-- Witness for claim C6 (amended) at concrete data: a 2-point series leaves
the fresh predictor untrained and `predict` erroring; a 10-point series with
a failing fit flips the guard off. -/
theorem claim_C6_amended_witness :
    (train true initTrendState [(0, 1), (1, 2)] "vue"
        = (false, initTrendState)
      ∧ predict initTrendState 7 = .modelNotTrained
      ∧ predict (train true initTrendState [(0, 1), (1, 2)] "vue").2 7
          = .modelNotTrained)
    ∧ train false initTrendState
        [(0, 50), (1, 50), (2, 50), (3, 50), (4, 50), (5, 50), (6, 50),
         (7, 50), (8, 50), (9, 50)] "vue" = (false, ⟨some none, none⟩) :=
  ⟨⟨claim_C6_amended.1 true initTrendState [(0, 1), (1, 2)] "vue" (by decide),
    claim_C6_amended.2.1 initTrendState 7 rfl,
    claim_C6_amended.2.2.1 true [(0, 1), (1, 2)] "vue" 7 (by decide)⟩,
   (claim_C6_amended.2.2.2
      [(0, 50), (1, 50), (2, 50), (3, 50), (4, 50), (5, 50), (6, 50),
       (7, 50), (8, 50), (9, 50)] "vue" 7 (by decide)).1⟩

/-! ## Theorems for claim C2 -/

/-- Claim C2 as stated by the spec: whenever the ML backend throws,
`analyze` falls back to a keyword-rule classifier — a case-insensitive
substring hit in the frustration lexicon yields `FRUSTRATED`, otherwise a
positive-lexicon hit yields `POSITIVE`, otherwise `NEUTRAL`, frustration
checked first. -/
def C2Spec : Prop :=
  ∀ (ml : MLBackend) (text : String),
    (∀ s, ∃ msg, ml s = .error msg) →
    ((∃ w ∈ frustrationLexicon,
        hasSub w.toList (pyLower text).toList = true) →
      (analyze ml text).label = "FRUSTRATED")
    ∧ ((¬ ∃ w ∈ frustrationLexicon,
          hasSub w.toList (pyLower text).toList = true) →
        (∃ w ∈ positiveLexicon,
          hasSub w.toList (pyLower text).toList = true) →
        (analyze ml text).label = "POSITIVE")
    ∧ ((¬ ∃ w ∈ frustrationLexicon,
          hasSub w.toList (pyLower text).toList = true) →
        (¬ ∃ w ∈ positiveLexicon,
          hasSub w.toList (pyLower text).toList = true) →
        (analyze ml text).label = "NEUTRAL")

/-- Claim C2 is false on the code: when the pipeline call raises, the
`except` branch of `analyze` (lines 156-163) immediately returns the fixed
`NEUTRAL` dict — the keyword layer is never consulted.  Concretely, on
`'this is total garbage honestly'` (a frustration-lexicon hit) with a
throwing backend, `analyze` returns `NEUTRAL`, not `FRUSTRATED`. -/
theorem claim_C2_counterexample : ¬ C2Spec := by
  intro h
  have h1 := (h (fun _ => .error "model unavailable")
      "this is total garbage honestly"
      (fun _ => ⟨"model unavailable", rfl⟩)).1
    ⟨"garbage", by decide, by decide⟩
  have h2 : (analyze (fun _ => .error "model unavailable")
      "this is total garbage honestly").label = "NEUTRAL" := rfl
  rw [h1] at h2
  exact absurd h2 (by decide)

/-- Claim C2 (amended): whenever the ML backend throws (on a text passing
the length and non-empty-clean guards), `analyze` does not fall back to a
keyword-rule classifier: it returns the fixed result `{label: NEUTRAL,
score: 0.5, confidence: low, reasoning: 'Analysis failed'}`, regardless of
the text's keyword content. -/
theorem claim_C2_amended (ml : MLBackend) (text msg : String)
    (h1 : ¬ (text = "" ∨ (pyStrip text.toList).length < 5))
    (h2 : preprocess_text text ≠ "")
    (h3 : ml (preprocess_text text) = .error msg) :
    analyze ml text = analysisFailedResult := by
  have h1' : ¬ (text = "" ∨ (pyStrip text.data).length < 5) := by
    simpa [String.toList] using h1
  simp [analyze, h1', h2, h3]

/-- Witness for claim C2 (amended): a throwing backend on a
frustration-keyword text yields the fixed neutral failure dict. -/
theorem claim_C2_amended_witness :
    analyze (fun _ => .error "model unavailable")
      "this is total garbage honestly" = analysisFailedResult :=
  claim_C2_amended (fun _ => .error "model unavailable")
    "this is total garbage honestly" "model unavailable"
    (by decide) (by decide) rfl

/-! ## Theorems for claim C4 -/

/-- Claim C4 as stated by the spec: any text whose CLEANED form is empty or
shorter than 5 characters gets `NEUTRAL` at low confidence without the ML
backend being invoked. -/
def C4Spec : Prop :=
  ∀ (ml : MLBackend) (text : String),
    (preprocess_text text = "" ∨ (preprocess_text text).length < 5) →
    (analyze ml text).label = "NEUTRAL"
    ∧ (analyze ml text).confidence = "low"

/-- Claim C4 is false on the code: the short-text guard of `analyze`
(line 134) tests the RAW text (`len(text.strip()) < 5`), not the cleaned
form.  On `'hi http://a.b'` the raw text is 13 characters but the cleaned
form is `'hi'` (2 characters); the guard does not fire, the backend IS
invoked, and with a backend answering `POSITIVE` the result label is
`POSITIVE`, not `NEUTRAL`. -/
theorem claim_C4_counterexample : ¬ C4Spec := by
  intro h
  have := (h (fun _ => .ok ⟨"POSITIVE", 9 / 10⟩) "hi http://a.b"
    (Or.inr (by decide))).1
  exact absurd this (by decide)

/-- Claim C4 (amended): `analyze` returns the fixed low-confidence `NEUTRAL`
guard results without invoking the ML backend (the result is the same for
every backend) exactly when the RAW text is empty or its stripped form is
shorter than 5 characters, or when the cleaned form is empty; a non-empty
cleaned form shorter than 5 characters does NOT trigger the guard and the
backend is invoked on it. -/
theorem claim_C4_amended (ml : MLBackend) (text : String) :
    ((text = "" ∨ (pyStrip text.toList).length < 5) →
      analyze ml text = tooShortResult)
    ∧ (preprocess_text text = "" →
        ¬ (text = "" ∨ (pyStrip text.toList).length < 5) →
        analyze ml text = emptyCleanResult) := by
  constructor
  · intro h
    have h' : text = "" ∨ (pyStrip text.data).length < 5 := by
      simpa [String.toList] using h
    simp [analyze, h']
  · intro h hg
    have hg' : ¬ (text = "" ∨ (pyStrip text.data).length < 5) := by
      simpa [String.toList] using hg
    simp [analyze, hg', h]

/-- Witness for claim C4 (amended): a 2-character raw text hits the first
guard; a pure-URL text (stripped length 13) passes the first guard but
cleans to the empty string and hits the second. -/
theorem claim_C4_amended_witness :
    analyze (fun _ => .ok ⟨"POSITIVE", 9 / 10⟩) "hm" = tooShortResult
    ∧ analyze (fun _ => .ok ⟨"POSITIVE", 9 / 10⟩) "http://abcdef"
        = emptyCleanResult :=
  ⟨(claim_C4_amended (fun _ => .ok ⟨"POSITIVE", 9 / 10⟩) "hm").1
      (Or.inr (by decide)),
   (claim_C4_amended (fun _ => .ok ⟨"POSITIVE", 9 / 10⟩) "http://abcdef").2
      (by decide) (by decide)⟩

/-! ## Lemmas for claim C7 -/

theorem qMean_perm {l l' : List ℚ} (h : l.Perm l') : qMean l = qMean l' := by
  rw [qMean, qMean, h.sum_eq, h.length_eq]

theorem qPopVar_perm {l l' : List ℚ} (h : l.Perm l') :
    qPopVar l = qPopVar l' := by
  rw [qPopVar, qPopVar, qMean_perm h, (h.map _).sum_eq, h.length_eq]

theorem qPopVar_nonneg (l : List ℚ) : 0 ≤ qPopVar l := by
  apply div_nonneg
  · apply List.sum_nonneg
    intro x hx
    rcases List.mem_map.1 hx with ⟨y, _, rfl⟩
    exact sq_nonneg _
  · exact_mod_cast Nat.zero_le _

theorem sum_const_list (c : ℚ) :
    ∀ l : List ℚ, (∀ x ∈ l, x = c) → l.sum = l.length * c
  | [], _ => by simp
  | a :: t, h => by
    rw [List.sum_cons, sum_const_list c t (fun x hx => h x (.tail a hx)),
      h a (.head t), List.length_cons]
    push_cast
    ring

theorem qPopVar_const {l : List ℚ} {c : ℚ} (h : ∀ x ∈ l, x = c) :
    qPopVar l = 0 := by
  cases l with
  | nil => simp [qPopVar]
  | cons a t =>
    have hlen : ((a :: t).length : ℚ) ≠ 0 := by
      simp [List.length_cons]
      positivity
    have hm : qMean (a :: t) = c := by
      rw [qMean, sum_const_list c _ h, mul_comm, mul_div_assoc,
        div_self hlen, mul_one]
    rw [qPopVar, List.sum_eq_zero, zero_div]
    intro x hx
    rcases List.mem_map.1 hx with ⟨y, hy, rfl⟩
    rw [hm, h y hy, sub_self]
    ring

/-- The exact-arithmetic flag condition of the embedded detector agrees with
the real-valued `|z| ≥ t` of the source, where
`z = (y - mean)/sqrt(variance)`. -/
theorem zflag_iff (t v y m : ℚ) (hv : 0 < v) :
    (t * |t| * v ≤ (y - m) ^ 2) ↔
      ((t : ℝ) ≤ |(y : ℝ) - (m : ℝ)| / Real.sqrt (v : ℝ)) := by
  have hv' : (0 : ℝ) < (v : ℝ) := by exact_mod_cast hv
  have hcast : (t * |t| * v ≤ (y - m) ^ 2) ↔
      ((t : ℝ) * |(t : ℝ)| * (v : ℝ) ≤ ((y : ℝ) - (m : ℝ)) ^ 2) := by
    rw [← Rat.cast_le (K := ℝ)]
    push_cast
    rfl
  have hY : |(y : ℝ) - (m : ℝ)| / Real.sqrt (v : ℝ)
      = Real.sqrt ((((y : ℝ) - (m : ℝ)) ^ 2) / (v : ℝ)) := by
    rw [Real.sqrt_div' _ hv'.le, Real.sqrt_sq_eq_abs]
  rw [hcast, hY]
  rcases le_or_lt t 0 with ht | ht
  · have ht' : (t : ℝ) ≤ 0 := by exact_mod_cast ht
    constructor
    · intro _
      exact le_trans ht' (Real.sqrt_nonneg _)
    · intro _
      rw [abs_of_nonpos ht']
      nlinarith [mul_nonneg (mul_self_nonneg (t : ℝ)) hv'.le,
        sq_nonneg ((y : ℝ) - (m : ℝ))]
  · have ht' : (0 : ℝ) < (t : ℝ) := by exact_mod_cast ht
    rw [Real.le_sqrt' ht', le_div_iff₀ hv', abs_of_pos ht', pow_two]
    constructor
    · intro h
      nlinarith [h]
    · intro h
      nlinarith [h]

/-- Unfolded form of `detect_statistical_anomalies`. -/
theorem detect_stat_eq (data : List (Int × ℚ)) (t : ℚ) :
    detect_statistical_anomalies data t =
      if (List.insertionSort dateLe data).isEmpty then []
      else if qPopVar ((List.insertionSort dateLe data).map Prod.snd) = 0
        then []
      else
        ((List.insertionSort dateLe data).filter
            (fun p => decide
              (t * |t| * qPopVar ((List.insertionSort dateLe data).map
                  Prod.snd)
                ≤ (p.2 - qMean ((List.insertionSort dateLe data).map
                    Prod.snd)) ^ 2))).map
          (fun p => ⟨p.1, p.2,
            if qMean ((List.insertionSort dateLe data).map Prod.snd) < p.2
              then "spike" else "drop"⟩) := rfl

/-! ## Theorems for claim C7 -/

/-- Claim C7 (confirmed): the statistical detector flags a point exactly
when `|z| ≥ threshold` for `z = (value − mean)/population_stddev` (stated
here over `ℝ` with the genuine square root), with kind `spike` iff the value
exceeds the mean (`z > 0`) and `drop` otherwise, and a series with zero
population standard deviation — in particular every constant series —
produces no anomalies regardless of the threshold. -/
theorem claim_C7 (data : List (Int × ℚ)) (t : ℚ) :
    (∀ a : StatAnomaly,
      a ∈ detect_statistical_anomalies data t ↔
        ∃ p, p ∈ data
          ∧ 0 < Real.sqrt (qPopVar (data.map Prod.snd) : ℝ)
          ∧ (t : ℝ) ≤ |(p.2 : ℝ) - (qMean (data.map Prod.snd) : ℝ)|
              / Real.sqrt (qPopVar (data.map Prod.snd) : ℝ)
          ∧ a = ⟨p.1, p.2,
              if qMean (data.map Prod.snd) < p.2 then "spike" else "drop"⟩)
    ∧ ∀ c : ℚ, (∀ p ∈ data, p.2 = c) →
        detect_statistical_anomalies data t = [] := by
  have hperm : ((List.insertionSort dateLe data).map Prod.snd).Perm
      (data.map Prod.snd) :=
    (List.perm_insertionSort dateLe data).map _
  have hm : qMean ((List.insertionSort dateLe data).map Prod.snd)
      = qMean (data.map Prod.snd) := qMean_perm hperm
  have hv : qPopVar ((List.insertionSort dateLe data).map Prod.snd)
      = qPopVar (data.map Prod.snd) := qPopVar_perm hperm
  constructor
  · intro a
    rw [detect_stat_eq]
    simp only [hm, hv]
    by_cases hempty : (List.insertionSort dateLe data).isEmpty
    · rw [if_pos hempty]
      have hdata : data = [] := by
        have hnil := List.isEmpty_iff.1 hempty
        exact ((List.perm_insertionSort dateLe data).symm.trans
          (hnil ▸ List.Perm.refl _)).eq_nil
      subst hdata
      simp
    · rw [if_neg hempty]
      by_cases hv0 : qPopVar (data.map Prod.snd) = 0
      · rw [if_pos hv0]
        simp only [List.not_mem_nil, false_iff, not_exists]
        rintro p ⟨_, hσ, _⟩
        rw [hv0] at hσ
        simp at hσ
      · rw [if_neg hv0]
        have hvpos : 0 < qPopVar (data.map Prod.snd) :=
          lt_of_le_of_ne (qPopVar_nonneg _) (Ne.symm hv0)
        have hσpos : 0 < Real.sqrt ((qPopVar (data.map Prod.snd) : ℚ) : ℝ) :=
          Real.sqrt_pos.2 (by exact_mod_cast hvpos)
        constructor
        · intro ha
          rcases List.mem_map.1 ha with ⟨p, hpf, rfl⟩
          rcases List.mem_filter.1 hpf with ⟨hpmem, hcond⟩
          refine ⟨p, (List.mem_insertionSort dateLe).1 hpmem, hσpos, ?_, rfl⟩
          exact (zflag_iff t _ p.2 _ hvpos).1 (of_decide_eq_true hcond)
        · rintro ⟨p, hpmem, _, hcond, rfl⟩
          refine List.mem_map.2 ⟨p, List.mem_filter.2
            ⟨(List.mem_insertionSort dateLe).2 hpmem, ?_⟩, rfl⟩
          exact decide_eq_true ((zflag_iff t _ p.2 _ hvpos).2 hcond)
  · intro c hc
    rw [detect_stat_eq]
    by_cases hempty : (List.insertionSort dateLe data).isEmpty
    · rw [if_pos hempty]
    · have hzero : qPopVar ((List.insertionSort dateLe data).map Prod.snd)
          = 0 := by
        apply qPopVar_const
        intro x hx
        rcases List.mem_map.1 hx with ⟨p, hp, rfl⟩
        exact hc p ((List.mem_insertionSort dateLe).1 hp)
      rw [if_neg hempty, if_pos hzero]

/-- Witness for claim C7: a concrete constant series yields no anomalies at
threshold 1 (and at threshold 0). -/
theorem claim_C7_witness :
    detect_statistical_anomalies [(0, 5), (1, 5), (2, 5)] 1 = []
    ∧ detect_statistical_anomalies [(0, 5), (1, 5), (2, 5)] 0 = [] :=
  ⟨(claim_C7 [(0, 5), (1, 5), (2, 5)] 1).2 5 (by decide),
   (claim_C7 [(0, 5), (1, 5), (2, 5)] 0).2 5 (by decide)⟩

/-! ## Lemmas for claim C8 -/

theorem dedupByF_congr {α κ : Type} [DecidableEq κ] (key : α → κ) :
    ∀ (fuel fuel' : Nat) (l : List α), l.length ≤ fuel → l.length ≤ fuel' →
      dedupByF key fuel l = dedupByF key fuel' l
  | 0, 0, _, _, _ => rfl
  | 0, _ + 1, l, h, _ => by
    rw [List.length_eq_zero.1 (Nat.le_zero.1 h)]
    rfl
  | _ + 1, 0, l, _, h' => by
    rw [List.length_eq_zero.1 (Nat.le_zero.1 h')]
    rfl
  | _ + 1, _ + 1, [], _, _ => rfl
  | f + 1, f' + 1, p :: t, h, h' => by
    simp only [dedupByF]
    congr 1
    exact dedupByF_congr key f f' _
      (le_trans (List.length_filter_le _ t) (Nat.le_of_succ_le_succ h))
      (le_trans (List.length_filter_le _ t) (Nat.le_of_succ_le_succ h'))

theorem dedupBy_cons {α κ : Type} [DecidableEq κ] (key : α → κ) (p : α)
    (t : List α) :
    dedupBy key (p :: t)
      = p :: dedupBy key (t.filter (fun q => !(key q = key p : Bool))) := by
  rw [dedupBy, dedupBy, List.length_cons]
  simp only [dedupByF]
  congr 1
  exact dedupByF_congr key t.length _ _ (List.length_filter_le _ t)
    (le_refl _)

theorem dedupBy_id_cons (x : String) (l : List String) :
    dedupBy id (x :: l)
      = x :: dedupBy id (l.filter (fun q => !(q = x : Bool))) := by
  rw [dedupBy_cons]
  rfl

theorem foldl_add_score (results : List SentimentResult) :
    ∀ s : ℚ, results.foldl (fun s r => s + r.score) s
      = s + (results.map (fun r => r.score)).sum := by
  induction results with
  | nil => intro s; simp
  | cons r t ih =>
    intro s
    rw [List.foldl_cons, ih, List.map_cons, List.sum_cons]
    ring

theorem listLookup_bump (l k : String) :
    ∀ acc : List (String × Nat),
      listLookup (bump acc l) k
        = listLookup acc k + (if k = l then 1 else 0)
  | [] => by
    simp only [bump, listLookup]
    by_cases h : k = l
    · rw [if_pos h.symm, if_pos h, zero_add]
    · rw [if_neg (fun hc => h hc.symm), if_neg h]
  | (k', n) :: t => by
    simp only [bump]
    by_cases h1 : k' = l
    · rw [if_pos h1]
      simp only [listLookup]
      by_cases h2 : k' = k
      · rw [if_pos h2, if_pos h2]
        have hkl : k = l := h2 ▸ h1
        rw [if_pos hkl]
      · rw [if_neg h2, if_neg h2]
        have hkl : ¬ k = l := fun hc => h2 (h1.trans hc.symm)
        rw [if_neg hkl, add_zero]
    · rw [if_neg h1]
      simp only [listLookup]
      by_cases h2 : k' = k
      · rw [if_pos h2, if_pos h2]
        have hkl : ¬ k = l := fun hc => h1 (h2.trans hc)
        rw [if_neg hkl, add_zero]
      · rw [if_neg h2, if_neg h2, listLookup_bump l k t]

theorem listLookup_foldl_bump :
    ∀ (rs : List SentimentResult) (acc : List (String × Nat)) (k : String),
      listLookup (rs.foldl (fun a r => bump a r.label) acc) k
        = listLookup acc k + countLabel rs k
  | [], acc, k => by simp [countLabel]
  | r :: t, acc, k => by
    rw [List.foldl_cons, listLookup_foldl_bump t (bump acc r.label) k,
      listLookup_bump]
    simp only [countLabel, List.countP_cons, decide_eq_true_eq]
    by_cases h : k = r.label
    · rw [if_pos h, if_pos h.symm]
      omega
    · rw [if_neg h, if_neg (fun hc => h hc.symm)]
      omega

theorem listLookup_eq_zero :
    ∀ (m : List (String × Nat)) (k : String), k ∉ keysOf m →
      listLookup m k = 0
  | [], _, _ => rfl
  | (k', n) :: t, k, h => by
    simp only [keysOf, List.map_cons, List.mem_cons, not_or] at h
    rw [listLookup, if_neg (fun hc => h.1 hc.symm)]
    exact listLookup_eq_zero t k (by
      intro hc
      exact h.2 (by simpa [keysOf] using hc))

theorem sumCounts_bump (l : String) :
    ∀ acc : List (String × Nat), sumCounts (bump acc l) = sumCounts acc + 1
  | [] => by simp [bump, sumCounts]
  | (k, n) :: t => by
    simp only [bump]
    by_cases h : k = l
    · rw [if_pos h]
      simp only [sumCounts, List.map_cons, List.sum_cons]
      omega
    · rw [if_neg h]
      simp only [sumCounts, List.map_cons, List.sum_cons]
      have := sumCounts_bump l t
      simp only [sumCounts] at this
      omega

theorem sumCounts_foldl :
    ∀ (rs : List SentimentResult) (acc : List (String × Nat)),
      sumCounts (rs.foldl (fun a r => bump a r.label) acc)
        = sumCounts acc + rs.length
  | [], acc => by simp
  | r :: t, acc => by
    rw [List.foldl_cons, sumCounts_foldl t _, sumCounts_bump,
      List.length_cons]
    omega

theorem keysOf_bump (l : String) :
    ∀ acc : List (String × Nat),
      keysOf (bump acc l)
        = if l ∈ keysOf acc then keysOf acc else keysOf acc ++ [l]
  | [] => by simp [bump, keysOf]
  | (k, n) :: t => by
    simp only [bump]
    by_cases h : k = l
    · rw [if_pos h]
      have hmem : l ∈ keysOf ((k, n) :: t) := by
        simp [keysOf, h.symm]
      rw [if_pos hmem]
      simp [keysOf]
    · rw [if_neg h]
      have hrec := keysOf_bump l t
      by_cases hm : l ∈ keysOf t
      · have hmem : l ∈ keysOf ((k, n) :: t) := by
          simp only [keysOf, List.map_cons, List.mem_cons]
          exact Or.inr (by simpa [keysOf] using hm)
        rw [if_pos hmem]
        simp only [keysOf, List.map_cons]
        rw [if_pos hm] at hrec
        simp only [keysOf] at hrec
        rw [hrec]
      · have hmem : l ∉ keysOf ((k, n) :: t) := by
          simp only [keysOf, List.map_cons, List.mem_cons, not_or]
          exact ⟨fun hc => h hc.symm, by simpa [keysOf] using hm⟩
        rw [if_neg hmem]
        simp only [keysOf, List.map_cons]
        rw [if_neg hm] at hrec
        simp only [keysOf] at hrec
        rw [hrec, List.cons_append]

theorem keysOf_foldl :
    ∀ (rs : List SentimentResult) (acc : List (String × Nat)),
      keysOf (rs.foldl (fun a r => bump a r.label) acc)
        = keysOf acc ++ dedupBy id ((rs.map (fun r => r.label)).filter
            (fun x => !(x ∈ keysOf acc : Bool)))
  | [], acc => by simp [dedupBy, dedupByF]
  | r :: t, acc => by
    rw [List.foldl_cons, keysOf_foldl t (bump acc r.label)]
    by_cases hm : r.label ∈ keysOf acc
    · simp only [keysOf_bump, hm, if_true]
      rw [List.map_cons, List.filter_cons]
      rw [show (!(r.label ∈ keysOf acc : Bool)) = false by simp [hm]]
      simp
    · simp only [keysOf_bump, hm, if_false]
      rw [List.map_cons, List.filter_cons]
      rw [show (!(r.label ∈ keysOf acc : Bool)) = true by simp [hm]]
      simp only [if_true]
      have hpred : ∀ a : String,
          (!(a ∈ keysOf acc ++ [r.label] : Bool))
            = ((!(a = r.label : Bool)) && (!(a ∈ keysOf acc : Bool))) := by
        intro a
        by_cases h1 : a ∈ keysOf acc <;> by_cases h2 : a = r.label <;>
          simp [h1, h2]
      rw [dedupBy_id_cons, List.append_assoc, List.singleton_append,
        List.filter_filter, List.filter_congr (fun a _ => hpred a)]

theorem label_counts_keys (results : List SentimentResult) :
    keysOf (results.foldl (fun a r => bump a r.label) [])
      = dedupBy id (results.map (fun r => r.label)) := by
  rw [keysOf_foldl]
  simp only [keysOf, List.map_nil, List.nil_append]
  congr 1
  apply List.filter_eq_self.2
  intro a _
  simp

theorem label_counts_lookup (results : List SentimentResult) (k : String) :
    listLookup (results.foldl (fun a r => bump a r.label) []) k
      = countLabel results k := by
  rw [listLookup_foldl_bump]
  simp [listLookup]

theorem label_counts_nodup (results : List SentimentResult) :
    (keysOf (results.foldl (fun a r => bump a r.label) [])).Nodup := by
  rw [label_counts_keys]
  have := dedupBy_keys_nodup id (results.map (fun r => r.label))
  simpa using this

theorem listLookup_of_mem_nodup :
    ∀ m : List (String × Nat), (keysOf m).Nodup →
      ∀ k n, (k, n) ∈ m → listLookup m k = n
  | [], _, _, _, h => by simp at h
  | (k', n') :: t, hnd, k, n, hm => by
    simp only [keysOf, List.map_cons, List.nodup_cons] at hnd
    rcases List.mem_cons.1 hm with he | ht
    · injection he with he1 he2
      subst he1
      subst he2
      rw [listLookup, if_pos rfl]
    · have hne : k' ≠ k := by
        intro hc
        exact hnd.1 (hc ▸ List.mem_map.2 ⟨(k, n), ht, rfl⟩)
      rw [listLookup, if_neg hne]
      exact listLookup_of_mem_nodup t hnd.2 k n ht

theorem argmaxGo_best_le :
    ∀ (t : List (String × Nat)) (best : String × Nat),
      best.2 ≤ (argmaxGo best t).2
  | [], _ => le_refl _
  | q :: r, best => by
    simp only [argmaxGo]
    by_cases h : best.2 < q.2
    · rw [if_pos h]
      exact le_trans h.le (argmaxGo_best_le r q)
    · rw [if_neg h]
      exact argmaxGo_best_le r best

theorem argmaxGo_spec :
    ∀ (t : List (String × Nat)) (best : String × Nat),
      ∃ l₁ l₂, best :: t = l₁ ++ argmaxGo best t :: l₂
        ∧ (∀ q ∈ l₁, q.2 < (argmaxGo best t).2)
        ∧ (∀ q ∈ l₂, q.2 ≤ (argmaxGo best t).2)
  | [], best => ⟨[], [], rfl, by simp, by simp⟩
  | q :: r, best => by
    simp only [argmaxGo]
    by_cases h : best.2 < q.2
    · rw [if_pos h]
      obtain ⟨l₁, l₂, heq, h₁, h₂⟩ := argmaxGo_spec r q
      refine ⟨best :: l₁, l₂, ?_, ?_, h₂⟩
      · rw [List.cons_append, ← heq]
      · intro x hx
        rcases List.mem_cons.1 hx with rfl | hx'
        · exact lt_of_lt_of_le h (argmaxGo_best_le r q)
        · exact h₁ x hx'
    · rw [if_neg h]
      obtain ⟨l₁, l₂, heq, h₁, h₂⟩ := argmaxGo_spec r best
      cases l₁ with
      | nil =>
        simp only [List.nil_append] at heq
        injection heq with hb hr
        refine ⟨[], q :: l₂, ?_, by simp, ?_⟩
        · rw [List.nil_append, ← hb, hr]
        · intro x hx
          rcases List.mem_cons.1 hx with rfl | hx'
          · exact le_trans (not_lt.1 h) (argmaxGo_best_le r best)
          · exact h₂ x hx'
      | cons a l₁' =>
        rw [List.cons_append] at heq
        injection heq with hb hr
        have hbest : best.2 < (argmaxGo best r).2 := by
          have h0 := h₁ a (List.mem_cons_self a l₁')
          rwa [← hb] at h0
        refine ⟨best :: q :: l₁', l₂, ?_, ?_, h₂⟩
        · rw [List.cons_append, List.cons_append, ← hr]
        · intro x hx
          rcases List.mem_cons.1 hx with rfl | hx'
          · exact hbest
          · rcases List.mem_cons.1 hx' with rfl | hx''
            · exact lt_of_le_of_lt (not_lt.1 h) hbest
            · exact h₁ x (List.mem_cons_of_mem a hx'')

theorem sum_map_div (c : ℚ) :
    ∀ m : List (String × Nat),
      (m.map (fun p => ((p.2 : ℚ) / c))).sum = (sumCounts m : ℚ) / c
  | [] => by simp [sumCounts]
  | p :: t => by
    rw [List.map_cons, List.sum_cons, sum_map_div c t]
    simp only [sumCounts, List.map_cons, List.sum_cons]
    push_cast
    rw [add_div]

/-! ## Theorems for claim C8 -/

/-- Claim C8 (confirmed): for every non-empty result sequence,
`aggregate_sentiment` returns the arithmetic mean of the scores as
`average_score`, a `sentiment_distribution` whose values sum to exactly 1
(hence to 1.0 within 1e-6), and a `dominant_sentiment` that is a most
frequent label with ties broken by first-seen order (the label list
`dedupBy id (labels)` below lists the labels in order of first appearance:
every label strictly before the dominant one has strictly smaller count, and
no label at all has a larger count); the empty input returns the fixed
neutral default dict instead of failing. -/
theorem claim_C8 (results : List SentimentResult) (h : results ≠ []) :
    (aggregate_sentiment results).average_score
        = (results.map (fun r => r.score)).sum / results.length
    ∧ (((aggregate_sentiment results).sentiment_distribution.map
        (fun p => p.2)).sum = 1)
    ∧ (∃ d ps₁ ps₂,
        (aggregate_sentiment results).dominant_sentiment = some d
        ∧ dedupBy id (results.map (fun r => r.label)) = ps₁ ++ d :: ps₂
        ∧ (∀ l ∈ ps₁, countLabel results l < countLabel results d)
        ∧ ∀ l, countLabel results l ≤ countLabel results d)
    ∧ aggregate_sentiment [] = ⟨1 / 2, [], 0, 0, none, none⟩ := by
  have hne : results.isEmpty = false := by
    cases results with
    | nil => exact absurd rfl h
    | cons a t => rfl
  have hlen0 : (results.length : ℚ) ≠ 0 :=
    Nat.cast_ne_zero.2 (fun hc => h (List.length_eq_zero.1 hc))
  set lc := results.foldl (fun a r => bump a r.label) [] with hlc
  have hnodup := label_counts_nodup results
  have hvals : ∀ q, q ∈ lc → q.2 = countLabel results q.1 := by
    intro q hq
    have := listLookup_of_mem_nodup lc hnodup q.1 q.2 hq
    rw [← this, hlc, label_counts_lookup]
  refine ⟨?_, ?_, ?_, rfl⟩
  · have havg : (aggregate_sentiment results).average_score
        = (results.foldl (fun s r => s + r.score) 0) / results.length := by
      simp [aggregate_sentiment, hne]
    rw [havg, foldl_add_score, zero_add]
  · have hdist : (aggregate_sentiment results).sentiment_distribution
        = lc.map (fun p => (p.1, (p.2 : ℚ) / results.length)) := by
      simp [aggregate_sentiment, hne, hlc]
    rw [hdist, List.map_map]
    rw [show ((fun p : String × ℚ => p.2)
          ∘ fun p : String × Nat => (p.1, (p.2 : ℚ) / results.length))
        = fun p : String × Nat => (p.2 : ℚ) / results.length from rfl]
    rw [sum_map_div]
    rw [show sumCounts lc = results.length from by
      rw [hlc, sumCounts_foldl]
      simp [sumCounts]]
    exact div_self hlen0
  · have hdom : (aggregate_sentiment results).dominant_sentiment
        = firstArgmax lc := by
      simp [aggregate_sentiment, hne, hlc]
    have hkeys : keysOf lc = dedupBy id (results.map (fun r => r.label)) :=
      label_counts_keys results
    have hlcne : lc ≠ [] := by
      intro hc
      obtain ⟨r₀, t₀, rfl⟩ : ∃ r₀ t₀, results = r₀ :: t₀ := by
        cases results with
        | nil => exact absurd rfl h
        | cons a t => exact ⟨a, t, rfl⟩
      have := hkeys
      rw [hc] at this
      rw [List.map_cons, dedupBy_id_cons] at this
      exact absurd this.symm (List.cons_ne_nil _ _)
    obtain ⟨p, t, hpt⟩ : ∃ p t, lc = p :: t := by
      cases hlcq : lc with
      | nil => exact absurd hlcq hlcne
      | cons p t => exact ⟨p, t, rfl⟩
    obtain ⟨l₁, l₂, heq, h₁, h₂⟩ := argmaxGo_spec t p
    set fa := argmaxGo p t with hfa
    have hmemfa : fa ∈ lc := by
      rw [hpt, heq]
      exact List.mem_append.2 (Or.inr (List.mem_cons_self _ _))
    have hfacnt : fa.2 = countLabel results fa.1 := hvals fa hmemfa
    refine ⟨fa.1, keysOf l₁, keysOf l₂, ?_, ?_, ?_, ?_⟩
    · rw [hdom, hpt]
      rfl
    · rw [← hkeys, hpt, heq, keysOf, List.map_append, List.map_cons]
      rfl
    · intro l hl
      rcases List.mem_map.1 hl with ⟨q, hq, rfl⟩
      have hqlc : q ∈ lc := by
        rw [hpt, heq]
        exact List.mem_append.2 (Or.inl hq)
      rw [← hvals q hqlc, ← hfacnt]
      exact h₁ q hq
    · intro l
      by_cases hmem : l ∈ keysOf lc
      · rcases List.mem_map.1 hmem with ⟨q, hq, rfl⟩
        rw [← hvals q hq, ← hfacnt]
        rw [hpt, heq] at hq
        rcases List.mem_append.1 hq with hq1 | hq2
        · exact (h₁ q hq1).le
        · rcases List.mem_cons.1 hq2 with rfl | hq3
          · exact le_refl _
          · exact h₂ q hq3
      · have : countLabel results l = 0 := by
          rw [← label_counts_lookup, ← hlc]
          exact listLookup_eq_zero lc l hmem
        rw [this]
        exact Nat.zero_le _

/-- Witness for claim C8 at a concrete three-result list (two `POSITIVE`,
one `FRUSTRATED`): the average equals the arithmetic mean of the scores. -/
theorem claim_C8_witness :
    (aggregate_sentiment
        [⟨"POSITIVE", 1⟩, ⟨"FRUSTRATED", 0⟩, ⟨"POSITIVE", 1⟩]).average_score
      = (([⟨"POSITIVE", 1⟩, ⟨"FRUSTRATED", 0⟩, ⟨"POSITIVE", 1⟩]
          : List SentimentResult).map (fun r => r.score)).sum
        / (([⟨"POSITIVE", 1⟩, ⟨"FRUSTRATED", 0⟩, ⟨"POSITIVE", 1⟩]
          : List SentimentResult).length) :=
  (claim_C8 [⟨"POSITIVE", 1⟩, ⟨"FRUSTRATED", 0⟩, ⟨"POSITIVE", 1⟩]
    (List.cons_ne_nil _ _)).1

/-! ## Lemmas for claim C10 -/

theorem le_list_sum (a : ℚ) :
    ∀ l : List ℚ, (∀ v ∈ l, a ≤ v) → a * l.length ≤ l.sum
  | [], _ => by simp
  | v :: t, h => by
    rw [List.length_cons, List.sum_cons]
    push_cast
    have h1 := h v (List.mem_cons_self v t)
    have h2 := le_list_sum a t (fun x hx => h x (List.mem_cons_of_mem v hx))
    nlinarith [h1, h2]

theorem list_sum_le (b : ℚ) :
    ∀ l : List ℚ, (∀ v ∈ l, v ≤ b) → l.sum ≤ b * l.length
  | [], _ => by simp
  | v :: t, h => by
    rw [List.length_cons, List.sum_cons]
    push_cast
    have h1 := h v (List.mem_cons_self v t)
    have h2 := list_sum_le b t (fun x hx => h x (List.mem_cons_of_mem v hx))
    nlinarith [h1, h2]

/-! ## Theorems for claim C10 -/

/-- Claim C10 (confirmed): when every sentiment label is one of the five
enum labels, each emitted daily `sentiment_score` is the mean of a non-empty
list of values drawn from the fixed map `{SATISFIED: 90, POSITIVE: 75,
NEUTRAL: 50, NEGATIVE: 25, FRUSTRATED: 10}` and therefore lies in
`[10, 90]`, and each group's `record_count` is the number of input rows in
that `(technology, date)` group. -/
theorem claim_C10 (rows : List InRow) (sres : List SentimentResult)
    (hlen : rows.length = sres.length)
    (hlab : ∀ r ∈ sres, r.label ∈
      (["SATISFIED", "POSITIVE", "NEUTRAL", "NEGATIVE", "FRUSTRATED"]
        : List String)) :
    ∀ m ∈ aggregate_daily_metrics rows sres,
      (∃ vals : List ℚ, vals ≠ []
        ∧ (∀ v ∈ vals, v ∈ ([90, 75, 50, 25, 10] : List ℚ))
        ∧ m.sentiment_score = vals.sum / (vals.length : ℚ))
      ∧ (10 ≤ m.sentiment_score ∧ m.sentiment_score ≤ 90)
      ∧ m.record_count = (rows.filter
          (fun r => (r.technology = m.technology ∧ r.date = m.date
            : Bool))).length := by
  intro m hm
  simp only [aggregate_daily_metrics] at hm
  rcases List.mem_map.1 hm with ⟨k, hk, rfl⟩
  set tagged := rows.zip sres with htag
  have hkmem : k ∈ dedupBy id
      (tagged.map (fun p => (p.1.technology, p.1.date))) :=
    (List.mem_insertionSort keyLe).1 hk
  have hk2 : k ∈ tagged.map (fun p => (p.1.technology, p.1.date)) :=
    mem_of_mem_dedupBy hkmem
  rcases List.mem_map.1 hk2 with ⟨p₀, hp₀, hkey⟩
  set grp := tagged.filter
    (fun p => (p.1.technology = k.1 ∧ p.1.date = k.2 : Bool)) with hgrp
  have hp₀grp : p₀ ∈ grp := by
    rw [hgrp]
    refine List.mem_filter.2 ⟨hp₀, ?_⟩
    rw [← hkey]
    simp
  set nums := grp.filterMap (fun p => label_to_score p.2.label) with hnums
  have hmemsres : ∀ p ∈ grp, p.2 ∈ sres := by
    intro p hp
    have hpt : p ∈ tagged := (List.mem_filter.1 hp).1
    exact (List.of_mem_zip (show (p.1, p.2) ∈ rows.zip sres from hpt)).2
  have hvalsmem : ∀ v ∈ nums, v ∈ ([90, 75, 50, 25, 10] : List ℚ) := by
    intro v hv
    rcases List.mem_filterMap.1 hv with ⟨p, hp, hps⟩
    have hl := hlab p.2 (hmemsres p hp)
    rcases (by simpa using hl : p.2.label = "SATISFIED"
        ∨ p.2.label = "POSITIVE" ∨ p.2.label = "NEUTRAL"
        ∨ p.2.label = "NEGATIVE" ∨ p.2.label = "FRUSTRATED")
      with h1 | h1 | h1 | h1 | h1 <;>
    · simp [label_to_score, h1] at hps
      simp [← hps]
  have hnumsne : nums ≠ [] := by
    have hl := hlab p₀.2 (hmemsres p₀ hp₀grp)
    have hex : ∃ v, label_to_score p₀.2.label = some v := by
      rcases (by simpa using hl : p₀.2.label = "SATISFIED"
          ∨ p₀.2.label = "POSITIVE" ∨ p₀.2.label = "NEUTRAL"
          ∨ p₀.2.label = "NEGATIVE" ∨ p₀.2.label = "FRUSTRATED")
        with h1 | h1 | h1 | h1 | h1
      · exact ⟨90, by simp [label_to_score, h1]⟩
      · exact ⟨75, by simp [label_to_score, h1]⟩
      · exact ⟨50, by simp [label_to_score, h1]⟩
      · exact ⟨25, by simp [label_to_score, h1]⟩
      · exact ⟨10, by simp [label_to_score, h1]⟩
    rcases hex with ⟨v, hv⟩
    exact List.ne_nil_of_mem (List.mem_filterMap.2 ⟨p₀, hp₀grp, hv⟩)
  have hb : ∀ v ∈ nums, 10 ≤ v ∧ v ≤ 90 := by
    intro v hv
    rcases (by simpa using hvalsmem v hv : v = 90 ∨ v = 75 ∨ v = 50
        ∨ v = 25 ∨ v = 10) with rfl | rfl | rfl | rfl | rfl <;>
      norm_num
  have hlenq : (0 : ℚ) < (nums.length : ℚ) := by
    have hne : nums.length ≠ 0 := fun hc => hnumsne (List.length_eq_zero.1 hc)
    exact_mod_cast Nat.pos_of_ne_zero hne
  refine ⟨⟨nums, hnumsne, hvalsmem, rfl⟩, ⟨?_, ?_⟩, ?_⟩
  · rw [show (10 : ℚ) ≤ nums.sum / (nums.length : ℚ)
        ↔ 10 * (nums.length : ℚ) ≤ nums.sum from le_div_iff₀ hlenq]
    exact le_list_sum 10 nums (fun v hv => (hb v hv).1)
  · rw [show nums.sum / (nums.length : ℚ) ≤ 90
        ↔ nums.sum ≤ 90 * (nums.length : ℚ) from div_le_iff₀ hlenq]
    exact list_sum_le 90 nums (fun v hv => (hb v hv).2)
  · show grp.length = (rows.filter
      (fun r => (r.technology = k.1 ∧ r.date = k.2 : Bool))).length
    rw [hgrp, ← List.countP_eq_length_filter, ← List.countP_eq_length_filter]
    rw [show (fun p : InRow × SentimentResult =>
          (p.1.technology = k.1 ∧ p.1.date = k.2 : Bool))
        = ((fun r : InRow => (r.technology = k.1 ∧ r.date = k.2 : Bool))
            ∘ Prod.fst) from rfl]
    rw [← List.countP_map, htag, List.map_fst_zip rows sres (le_of_eq hlen)]

/-- Witness for claim C10 at a one-row frame (one `NEUTRAL` record for
`react` on day 0): the emitted score is the mean of `[50]` and within
bounds. -/
theorem claim_C10_witness :
    ((⟨"react", 0, ([(50 : ℚ)]).sum / (([(50 : ℚ)]).length : ℚ), 1,
        "NEUTRAL"⟩ : DailyMetric) ∈
      aggregate_daily_metrics [⟨"react", 0, "issue text"⟩]
        [⟨"NEUTRAL", 1 / 2⟩])
    ∧ (10 : ℚ) ≤ ([(50 : ℚ)]).sum / (([(50 : ℚ)]).length : ℚ)
    ∧ ([(50 : ℚ)]).sum / (([(50 : ℚ)]).length : ℚ) ≤ 90 := by
  have hm : (⟨"react", 0, ([(50 : ℚ)]).sum / (([(50 : ℚ)]).length : ℚ), 1,
      "NEUTRAL"⟩ : DailyMetric) ∈
      aggregate_daily_metrics [⟨"react", 0, "issue text"⟩]
        [⟨"NEUTRAL", 1 / 2⟩] :=
    List.mem_singleton.2 rfl
  have h := claim_C10 [⟨"react", 0, "issue text"⟩] [⟨"NEUTRAL", 1 / 2⟩] rfl
    (by decide) _ hm
  exact ⟨hm, h.2.1.1, h.2.1.2⟩

end DevPulse
